import Mathlib

/-
Verification of the lint dispatch / output-parsing core (lint/linter.py).

The Python source is shallowly embedded: pure fragments become Lean
functions, dictionary state becomes association lists (insertion-ordered,
like Python 3 dicts), Python exceptions become `Except PyError`, and the
external collaborators that the module only calls into (the regex engine,
the Highlight object from lint/highlight.py, process spawning in
lint/util.py, the editor view) are passed in as explicit parameters or
recorded as call logs.
-/

namespace SublimeLint

/-- A dynamically typed Python value as it occurs in this module:
`None`, a string, or an integer. -/
inductive PyVal where
  | none
  | str (s : String)
  | int (n : Int)
deriving DecidableEq, Repr

/-- The Python exceptions that the embedded code can raise. -/
inductive PyError where
  | keyError (k : String)
  | typeError
  | valueError
  | notImplementedError
  | nameError (n : String)
deriving DecidableEq, Repr

/-- Python truthiness for the values above: `None` is falsy, a string is
truthy iff non-empty, an int is truthy iff non-zero. -/
def pyTruthy : PyVal → Bool
  | .none => false
  | .str s => s ≠ ""
  | .int n => n ≠ 0

/-- `str(x)` for the values above. -/
def pyStr : PyVal → String
  | .none => "None"
  | .str s => s
  | .int n => toString n

/-- `int(x)`: `TypeError` on `None`, `ValueError` on a non-numeric string. -/
def pyIntOf : PyVal → Except PyError Int
  | .int n => .ok n
  | .str s =>
    match s.toInt? with
    | some n => .ok n
    | Option.none => .error .valueError
  | .none => .error .typeError

/-- A regex capture value (`match.groupdict()` entry): `None` for a named
group that did not participate, otherwise the captured string. -/
def pyOfOpt : Option String → PyVal
  | Option.none => .none
  | some s => .str s

/-- Dictionary membership test (`k in d`) on an insertion-ordered
association list. -/
def dictHas {κ α : Type} [DecidableEq κ] : List (κ × α) → κ → Bool
  | [], _ => false
  | p :: rest, k => p.1 = k || dictHas rest k

/-- Dictionary lookup (`d[k]` when present) on an association list. -/
def dictGet? {κ α : Type} [DecidableEq κ] : List (κ × α) → κ → Option α
  | [], _ => Option.none
  | p :: rest, k => if p.1 = k then some p.2 else dictGet? rest k

/-- Dictionary assignment `d[k] = v`: an existing key's value is replaced
in place, a new key is appended, exactly like a Python 3 dict. -/
def dictAssign {κ α : Type} [DecidableEq κ] (d : List (κ × α)) (k : κ) (v : α) :
    List (κ × α) :=
  if dictHas d k then d.map (fun p => if p.1 = k then (k, v) else p)
  else d ++ [(k, v)]

/-- `d.update(u)`: assign every pair of `u` into `d`, in `u`'s order. -/
def dictUpdatePy {κ α : Type} [DecidableEq κ]
    (d : List (κ × α)) (u : List (κ × α)) : List (κ × α) :=
  u.foldl (fun acc p => dictAssign acc p.1 p.2) d

/-- A regex match object, reduced to what `split_match` consumes:
its `groupdict()`. -/
structure ReMatch where
  groupdict : List (String × Option String)
deriving DecidableEq, Repr

/-- The compiled output pattern, abstracted to the two operations the
module calls on it (the regex engine itself is external):
`finditer` over the whole output, and an anchored `match` on one line. -/
structure Regex where
  finditer : String → List ReMatch
  matchAt : String → Option ReMatch

/-- The tuple `(match, row, col, error, near)` yielded by
`Linter.split_match`; `matched` is the truthiness of the match object. -/
structure SplitResult where
  matched : Bool
  row : PyVal
  col : PyVal
  error : PyVal
  near : PyVal
deriving DecidableEq, Repr

/-- The defaults dict of `Linter.split_match` (linter.py line 283):
`{'row': None, 'col': None, 'error': '', 'near': None}`. -/
def splitDefaults : List (String × PyVal) :=
  [("row", PyVal.none), ("col", PyVal.none), ("error", PyVal.str ""), ("near", PyVal.none)]

/-- `items[k]`: `KeyError` when the key is absent. -/
def itemsGet (d : List (String × PyVal)) (k : String) : Except PyError PyVal :=
  match dictGet? d k with
  | some v => .ok v
  | Option.none => .error (.keyError k)

/-- The `items` dict of `Linter.split_match` (linter.py lines 283-284):
the defaults updated with the match's groupdict. -/
def split_items (mt : ReMatch) : List (String × PyVal) :=
  dictUpdatePy splitDefaults (mt.groupdict.map fun p => (p.1, pyOfOpt p.2))

/-- The conversion `col = int(col) - 1` applied only when `col` is truthy
(linter.py lines 288-289). -/
def colConv (col : PyVal) : Except PyError PyVal :=
  if pyTruthy col then (pyIntOf col).map (fun c => PyVal.int (c - 1)) else .ok col

/-- The truthy-match branch of `split_match`: read the keys
`('error', 'line', 'col', 'near')` out of the items dict in that
(evaluation) order — the first raised `KeyError` propagates — then
convert `row` and `col`. -/
def split_match_some (mt : ReMatch) : Except PyError SplitResult :=
  match itemsGet (split_items mt) "error" with
  | .error e => .error e
  | .ok error =>
    match itemsGet (split_items mt) "line" with
    | .error e => .error e
    | .ok row =>
      match itemsGet (split_items mt) "col" with
      | .error e => .error e
      | .ok col =>
        match itemsGet (split_items mt) "near" with
        | .error e => .error e
        | .ok near =>
          match pyIntOf row with
          | .error e => .error e
          | .ok r =>
            match colConv col with
            | .error e => .error e
            | .ok c => .ok ⟨true, PyVal.int (r - 1), c, error, near⟩

/-- `Linter.split_match` (linter.py lines 281-293).  For a real match it
builds `items` from the defaults updated with the groupdict, then reads
the keys `('error', 'line', 'col', 'near')` — note the defaults are keyed
`'row'` while the read uses `'line'` — converts `row` with `int(row) - 1`
unconditionally, and converts `col` only when truthy.  For a falsy match
it returns the empty placeholder tuple. -/
def split_match : Option ReMatch → Except PyError SplitResult
  | Option.none => .ok ⟨false, PyVal.none, PyVal.none, PyVal.str "", PyVal.none⟩
  | some mt => split_match_some mt

/-- `str.strip()` on a line of checker output. -/
def pyStrip (s : String) : String := s.trim

/-- `str.splitlines()`: split on newlines, without a trailing empty
piece for a trailing newline. -/
def pySplitlines (s : String) : List String :=
  if s = "" then []
  else
    let parts := s.splitOn "\n"
    if s.endsWith "\n" then parts.dropLast else parts

/-- `Linter.match_error` (linter.py lines 295-298): anchored match of the
pattern against one (stripped, already decoded) line. -/
def match_error (rgx : Regex) (line : String) : Except PyError SplitResult :=
  split_match (rgx.matchAt line)

/-- `bool(it)` for a Python iterator object such as the result of
`re.finditer`: iterators define neither `__bool__` nor `__len__`, so they
are always truthy — even when they will yield nothing. -/
def pyIterTruthy {α : Type} (_it : List α) : Bool := true

/-- The `language` class attribute: a single string, or a tuple/list of
strings (`Linter.can_lint` branches on `isinstance`). -/
inductive LangField where
  | s (v : String)
  | l (vs : List String)
deriving DecidableEq, Repr

/-- Truthiness of the `language` attribute. -/
def langTruthy : LangField → Bool
  | .s v => v ≠ ""
  | .l vs => vs ≠ []

/-- The declarative part of a `Linter` subclass (a checker definition),
as read by the code under verification.  `regex` is the declared pattern
source; `regexCompiles` records whether `re.compile` succeeds on it (the
regex engine is external).  After `__init__`, the instance's `regex`
attribute is the compiled pattern on success and the original string
otherwise, so it is truthy iff the source string is non-empty. -/
structure LinterDef where
  name : String
  language : LangField
  cmd : List String
  regex : String
  regexCompiles : Bool
  multiline : Bool
  tab_size : Nat
  scope : String
  selector : Option String
  outline : Bool
  needs_api : Bool
  defaults : Option (List (String × PyVal))
deriving DecidableEq, Repr

/-- `str.lower()` (the syntax tokens in play are ASCII). -/
def pyLower (s : String) : String :=
  String.mk (s.toList.map Char.toLower)

/-- `Linter.can_lint` (linter.py lines 249-258): lower-case the argument;
if the class declares no language, fall off the function (returns `None`,
falsy); a string language is compared for equality; a tuple/list language
is tested for membership (`language == cls.language` is `False` between a
string and a tuple, so the `isinstance` branch decides). -/
def can_lint (d : LinterDef) (language : String) : Bool :=
  let language := pyLower language
  if langTruthy d.language then
    match d.language with
    | .s v => language = v
    | .l vs => vs.contains language
  else false

/-- Truthiness of `self.language and self.cmd and self.regex` as tested at
the top of `Linter.lint` (linter.py line 209). -/
def lint_ready (d : LinterDef) : Bool :=
  langTruthy d.language && !d.cmd.isEmpty && d.regex ≠ ""

/-- One highlight request sent to the (external) `Highlight` object by
`Linter.lint` / `Linter.error`: `highlight.range(row, col)`,
`highlight.near(row, near)` or `highlight.line(row)`. -/
inductive HL where
  | range (row : PyVal) (col : PyVal)
  | near (row : PyVal) (tok : PyVal)
  | line (row : PyVal)
deriving DecidableEq, Repr

/-- The `Highlight` object (lint/highlight.py, outside this module) is
opaque here: we keep its constructor arguments and a log of the highlight
calls made against it. -/
structure Highlight where
  hcode : String
  scope : String
  outline : Bool
  marks : List HL
deriving DecidableEq, Repr

/-- `Highlight(code, scope=scope, outline=outline)`: a newly built
highlight object with an empty call log. -/
def freshHighlight (code : String) (scope : String) (outline : Bool) : Highlight :=
  ⟨code, scope, outline, []⟩

/-- The mutable per-instance state that `lint` updates: `self.errors`
(a dict from row to the list of messages) and `self.highlight`. -/
structure InstState where
  errors : List (PyVal × List String)
  highlight : Highlight
deriving DecidableEq, Repr

/-- Record one highlight call on the instance's highlight object. -/
def addMark (st : InstState) (m : HL) : InstState :=
  { st with highlight := { st.highlight with marks := st.highlight.marks ++ [m] } }

/-- `self.errors[line].append(error)` / `self.errors[line] = [error]`. -/
def errAppend (d : List (PyVal × List String)) (k : PyVal) (m : String) :
    List (PyVal × List String) :=
  if dictHas d k then d.map (fun p => if p.1 = k then (p.1, p.2 ++ [m]) else p)
  else d ++ [(k, [m])]

/-- `Linter.error` (linter.py lines 260-267): always highlights the line,
stringifies the message and appends it under the line key. -/
def error_method (st : InstState) (line : PyVal) (err : PyVal) : InstState :=
  let st := addMark st (HL.line line)
  { st with errors := errAppend st.errors line (pyStr err) }

/-- The column correction of `Linter.lint` (linter.py lines 221-231).
After the line text is sliced and `diff = 0` is set, the loop header
`for i in xrange(len(code_line)):` is evaluated — and `xrange` is a
Python 2 name that this Python 3 module (cf. `from queue import Queue`
on line 1) never defines, so the correction raises
`NameError('xrange')` before its first iteration, for every input.  No
corrected column is ever computed; the scan the loop body spells out is
dead code. -/
def fix_col (_tabSize : Nat) (_codeLine : String) (_col : Int) : Except PyError Int :=
  Except.error (PyError.nameError "xrange")

/-- `row or row is 0` / `col or col is 0` (CPython interns small
integers, so `is 0` behaves as equality to `0` here). -/
def orIsZero (v : PyVal) : Bool :=
  pyTruthy v || decide (v = PyVal.int 0)

/-- Typed extraction of an int where Python would do int arithmetic or
indexing with the value; any other value would raise `TypeError` there. -/
def asInt : PyVal → Except PyError Int
  | .int n => .ok n
  | _ => .error .typeError

/-- The body of the `for match, row, col, message, near in
self.find_errors(output)` loop in `Linter.lint` (lines 216-239): a falsy
match does nothing; otherwise, when the row is truthy-or-zero, one of
`range`/`near`/`line` highlighting happens, and in every matched case
`self.error(row, message)` runs — even when the row is absent.  When
`tab_size > 1` the correction path slices the row's raw text (via the
external `Highlight.full_line`, passed here as `fullLine`) and then hits
the undefined `xrange` name, so `fix_col` propagates the `NameError`
that path raises at runtime. -/
def processResult (tabSize : Nat) (fullLine : Int → String)
    (st : InstState) (r : SplitResult) : Except PyError InstState :=
  if r.matched then
    if orIsZero r.row then
      if orIsZero r.col then
        if tabSize > 1 then
          match asInt r.row, asInt r.col with
          | .ok row, .ok col =>
            (match fix_col tabSize (fullLine row) col with
             | .ok col2 =>
               .ok (error_method (addMark st (HL.range r.row (PyVal.int col2))) r.row r.error)
             | .error e => .error e)
          | .error e, _ => .error e
          | _, .error e => .error e
        else .ok (error_method (addMark st (HL.range r.row r.col)) r.row r.error)
      else if pyTruthy r.near then
        .ok (error_method (addMark st (HL.near r.row r.near)) r.row r.error)
      else
        .ok (error_method (addMark st (HL.line r.row)) r.row r.error)
    else .ok (error_method st r.row r.error)
  else .ok st

/-- `Linter.find_errors` (linter.py lines 269-279).  Multiline mode tests
`if errors:` on the *iterator* returned by `finditer`, which is always
truthy, so the `split_match(None)` placeholder branch is unreachable.
Per-line mode strips and matches each line of the output. -/
def find_errors (d : LinterDef) (rgx : Regex) (output : String) :
    List (Except PyError SplitResult) :=
  if d.multiline then
    let errors := rgx.finditer output
    if pyIterTruthy errors then errors.map (fun m => split_match (some m))
    else [split_match Option.none]
  else
    (pySplitlines output).map (fun line => match_error rgx (pyStrip line))

/-- Consume the parse results the way the `for` loop in `lint` does:
a result whose production raised propagates that exception; otherwise the
loop body runs and may itself raise. -/
def runResults (tabSize : Nat) (fullLine : Int → String) :
    InstState → List (Except PyError SplitResult) → Except PyError InstState
  | st, [] => .ok st
  | _, Except.error e :: _ => .error e
  | st, Except.ok r :: rest =>
    match processResult tabSize fullLine st r with
    | .error e => .error e
    | .ok st2 => runResults tabSize fullLine st2 rest

/-- `Linter.lint` (linter.py lines 208-239).  `comm` is the external
`self.communicate` (util.communicate); a `None` return is modelled as the
empty (falsy) string.  The first component is the log of external checker
invocations performed (the argv passed to `communicate`); the incomplete
definition check raises before any invocation. -/
def lint (d : LinterDef) (comm : List String → String → String) (rgx : Regex)
    (fullLine : Int → String) (code : String) (st0 : InstState) :
    List (List String) × Except PyError InstState :=
  if lint_ready d then
    let output := comm d.cmd code
    ([d.cmd],
      if output = "" then .ok st0
      else runResults d.tab_size fullLine st0 (find_errors d rgx output))
  else ([], .error .notImplementedError)

/-- `Linter.pre_lint` (linter.py lines 187-206): reset `self.errors` to an
empty dict, install the passed highlight or a fresh one, return right away
on falsy code; otherwise run `lint` (the `needs_api` rendezvous in the
source puts a token on a queue, calls the callback inline on this thread
and joins, so both branches call `self.lint(code)` before returning). -/
def pre_lint (d : LinterDef) (comm : List String → String → String) (rgx : Regex)
    (fullLine : Int → String) (code : String) (hlArg : Option Highlight) :
    List (List String) × Except PyError InstState :=
  let errors : List (PyVal × List String) := []
  let hl := hlArg.getD (freshHighlight code d.scope d.outline)
  if code = "" then ([], .ok ⟨errors, hl⟩)
  else lint d comm rgx fullLine code ⟨errors, hl⟩

/-- A live checker instance as created by `entry(view, syntax, ...)` in
`Linter.assign`: `id` models Python object identity (each construction is
a distinct object), `defName` the registry name of its class, `syn` the
canonical syntax token it was bound to. -/
structure LintInstance where
  id : Nat
  defName : String
  syn : String
deriving DecidableEq, Repr

/-- The slice of an editor view that `assign` consumes: `view.id()`, the
`'syntax'` view setting (`None` modelled as `""`), and `view.file_name()`. -/
structure View where
  vid : Nat
  synSetting : String
  fileName : Option String
deriving DecidableEq, Repr

/-- The process-wide registries of lint/persist.py, as used by `assign` /
`remove`: `languages` maps registry names to checker definitions,
`linters` maps a view id to its live instance set (the Python set is kept
as a creation-ordered list), and `nextId` feeds object identities. -/
structure Persist where
  languages : List (String × LinterDef)
  linters : List (Nat × List LintInstance)
  nextId : Nat
deriving DecidableEq, Repr

/-- The capture of `re.search(r'/([^/]+)\.tmLanguage$', s)` (linter.py
line 9): the non-empty, slash-free base name sitting between the last
`/` and a final `.tmLanguage`, when the string has that shape
(the suffix test is spelled out on the character list). -/
def syn_re_search (s : String) : Option String :=
  let cs := s.toList
  if cs.reverse.take 11 = (".tmLanguage".toList).reverse then
    let stem := cs.take (cs.length - 11)
    if stem.contains '/' then
      let base := (stem.reverse.takeWhile (fun c => c ≠ '/')).reverse
      if base.isEmpty then Option.none else some (String.mk base)
    else Option.none
  else Option.none

/-- `Linter.remove` (linter.py lines 101-107): clear every instance (a
highlight side effect on the external view) and delete the entry; a
no-op for an absent id. -/
def remove (p : Persist) (vid : Nat) : Persist :=
  { p with linters := p.linters.filter (fun q => q.1 ≠ vid) }

/-- The instance-building loop of `assign` (lines 89-93): iterate the
language registry in order and instantiate every definition whose
`can_lint(syntax)` holds, handing out fresh object identities. -/
def mkInstances (langs : List (String × LinterDef)) (syn : String) (startId : Nat) :
    List LintInstance × Nat :=
  langs.foldl
    (fun acc entry =>
      if can_lint entry.2 syn then (acc.1 ++ [⟨acc.2, entry.1, syn⟩], acc.2 + 1)
      else acc)
    ([], startId)

/-- `Linter.assign` (linter.py lines 60-99).  A falsy syntax setting
removes the view and returns `None`; otherwise the canonical token is the
`.tmLanguage` base name, or the raw value.  When instances already exist
and the first one's bound syntax equals the token, the function does a
bare `return` — `None`, with the registry untouched.  Otherwise matching
definitions are instantiated; a non-empty set is stored and returned, an
empty one removes the view and returns `None`. -/
def assign (p : Persist) (v : View) : Persist × Option (List LintInstance) :=
  let vid := v.vid
  let syn0 := v.synSetting
  if syn0 = "" then (remove p vid, Option.none)
  else
    let syn := (syn_re_search syn0).getD syn0
    if syn = "" then (remove p vid, Option.none)
    else
      let existing := (dictGet? p.linters vid).getD []
      let skip : Bool :=
        match existing with
        | [] => false
        | inst :: _ => inst.syn = syn
      if skip then (p, Option.none)
      else
        let built := mkInstances p.languages syn p.nextId
        if built.1.isEmpty then (remove p vid, Option.none)
        else
          ({ p with linters := dictAssign p.linters vid built.1, nextId := built.2 },
           some built.1)

/-- `Linter.get_settings` (linter.py lines 49-54).  `settings =
cls.defaults or {}` *aliases* the stored defaults dict whenever it is
truthy, and `settings.update(...)` then mutates it in place.  The first
component is the returned settings, the second the definition's stored
`defaults` after the call. -/
def get_settings (defaults : Option (List (String × PyVal)))
    (plugins : List (String × List (String × PyVal))) (clsName : String) :
    List (String × PyVal) × Option (List (String × PyVal)) :=
  let cfg := (dictGet? plugins clsName).getD []
  match defaults with
  | some d =>
    if d.isEmpty then (dictUpdatePy [] cfg, some [])
    else
      let s := dictUpdatePy d cfg
      (s, some s)
  | Option.none => (dictUpdatePy [] cfg, Option.none)

/-- `code[left:right]` on the document text (by code point, as in
Python). -/
def pySlice (s : String) (a b : Nat) : String :=
  String.mk ((s.toList.take b).drop a)

/-- Shift an errors-dict key by a section's line offset
(`line + line_offset`).  `lint` only ever stores int keys; a non-int key
would raise `TypeError` at the addition in Python. -/
def pyAddOffset (v : PyVal) (off : Int) : PyVal :=
  match v with
  | .int n => .int (n + off)
  | other => other

/-- The section loop of `Linter.lint_view` (linter.py lines 157-166) for
one selector-bound instance: start from an empty dict; for every section
`(line_offset, left, right)`, run the instance on `code[left:right]`
(`run` abstracts `pre_lint` + the external checker, giving the instance's
resulting `errors` dict) and assign every produced entry under the key
`line + line_offset`.  The final dict replaces the instance's errors. -/
def lint_view_sections (code : String) (secs : List (Int × Nat × Nat))
    (run : String → List (PyVal × List String)) : List (PyVal × List String) :=
  secs.foldl
    (fun errors sec =>
      let lerrs := run (pySlice code sec.2.1 sec.2.2)
      lerrs.foldl (fun errors kv => dictAssign errors (pyAddOffset kv.1 sec.1) kv.2) errors)
    []

/-- Following the spec's words (§4.4 Column Corrector): the tab
contribution accumulated by the time the scan looks at index `t`. -/
def specDiff (tabSize : Nat) (chars : List Char) (t : Nat) : Int :=
  (((chars.take (t + 1)).countP (fun c => decide (c = '\t'))) : Int) * ((tabSize : Int) - 1)

/-- Following the spec's words (§4.4 Column Corrector): the corrected
column is the first scan index `i` with `col - diff ≤ i`; when no index
of the line qualifies, the reported column is left unchanged. -/
def specScanCorrected (tabSize : Nat) (chars : List Char) (col : Int) : Int :=
  match (List.range chars.length).find?
      (fun t => decide (col - specDiff tabSize chars t ≤ (t : Int))) with
  | some t => (t : Int)
  | Option.none => col

/-- A complete, well-formed concrete checker definition, used to
evaluate the embedded code on concrete inputs. -/
def pyDef : LinterDef :=
  { name := "Python", language := .s "python", cmd := ["pyflakes"], regex := "x",
    regexCompiles := true, multiline := false, tab_size := 1, scope := "keyword",
    selector := Option.none, outline := true, needs_api := false,
    defaults := Option.none }

/-- A multiline variant of the concrete definition. -/
def mlDef : LinterDef := { pyDef with multiline := true, regex := "E" }

/-- A definition whose declared pattern source fails to compile (an
unbalanced paren); `__init__` leaves the attribute as the original,
truthy string. -/
def parenDef : LinterDef := { pyDef with regex := "(", regexCompiles := false }

/-- A definition with no command. -/
def noCmdDef : LinterDef := { pyDef with cmd := [] }

/-- A pattern object that matches nothing anywhere. -/
def noMatchRegex : Regex := ⟨fun _ => [], fun _ => Option.none⟩

/-- A fresh instance state, as after `pre_lint` resets it. -/
def emptyState : InstState := ⟨[], freshHighlight "" "keyword" true⟩

/-- An empty registry holding one language. -/
def p0 : Persist := { languages := [("Python", pyDef)], linters := [], nextId := 0 }

/-- A view whose syntax setting is a `.tmLanguage` path with base name
`Python`. -/
def v0 : View :=
  { vid := 1, synSetting := "Packages/Python/Python.tmLanguage", fileName := Option.none }

/-- The instance `assign p0 v0` creates. -/
def inst0 : LintInstance := { id := 0, defName := "Python", syn := "Python" }

/-- The registry state after `assign p0 v0`. -/
def p1c : Persist :=
  { languages := [("Python", pyDef)], linters := [(1, [inst0])], nextId := 1 }

theorem dictGet?_append_right {κ α : Type} [DecidableEq κ]
    (d e : List (κ × α)) (k : κ) (h : ∀ p ∈ d, p.1 ≠ k) :
    dictGet? (d ++ e) k = dictGet? e k := by
  induction d with
  | nil => rfl
  | cons p rest ih =>
    have hp : p.1 ≠ k := h p (List.mem_cons_self _ _)
    simp only [List.cons_append, dictGet?, hp, if_false]
    exact ih (fun q hq => h q (List.mem_cons_of_mem _ hq))

theorem dictGet?_replace_self {κ α : Type} [DecidableEq κ]
    (d : List (κ × α)) (k : κ) (v : α) (h : dictHas d k = true) :
    dictGet? (d.map (fun p => if p.1 = k then (k, v) else p)) k = some v := by
  induction d with
  | nil => simp [dictHas] at h
  | cons p rest ih =>
    by_cases hp : p.1 = k
    · simp [dictGet?, hp]
    · simp only [dictHas, Bool.or_eq_true, decide_eq_true_eq] at h
      have h2 : dictHas rest k = true := by
        rcases h with h | h
        · exact absurd h hp
        · exact h
      simp only [List.map_cons, if_neg hp, dictGet?, hp, if_false]
      exact ih h2

theorem dictGet?_replace_other {κ α : Type} [DecidableEq κ]
    (d : List (κ × α)) (k k' : κ) (v : α) (hne : k' ≠ k) :
    dictGet? (d.map (fun p => if p.1 = k then (k, v) else p)) k' = dictGet? d k' := by
  induction d with
  | nil => rfl
  | cons p rest ih =>
    by_cases hp : p.1 = k
    · have h1 : ¬(k = k') := fun hh => hne hh.symm
      have hp' : ¬(p.1 = k') := by rw [hp]; exact h1
      simp only [List.map_cons, if_pos hp, dictGet?, if_neg h1, if_neg hp']
      exact ih
    · by_cases hp' : p.1 = k'
      · simp only [List.map_cons, if_neg hp, dictGet?, if_pos hp']
      · simp only [List.map_cons, if_neg hp, dictGet?, if_neg hp']
        exact ih

theorem dictGet?_append {κ α : Type} [DecidableEq κ]
    (d e : List (κ × α)) (k : κ) :
    dictGet? (d ++ e) k =
      (match dictGet? d k with
       | some v => some v
       | Option.none => dictGet? e k) := by
  induction d with
  | nil => rfl
  | cons p rest ih =>
    by_cases hp : p.1 = k
    · simp [dictGet?, hp]
    · simp only [List.cons_append, dictGet?, if_neg hp]
      exact ih

theorem dictHas_false_keys {κ α : Type} [DecidableEq κ]
    (d : List (κ × α)) (k : κ) (h : dictHas d k = false) :
    ∀ p ∈ d, p.1 ≠ k := by
  induction d with
  | nil => intro p hp; cases hp
  | cons p rest ih =>
    simp only [dictHas, Bool.or_eq_false_iff, decide_eq_false_iff_not] at h
    intro q hq
    rcases List.mem_cons.1 hq with rfl | hq2
    · exact h.1
    · exact ih h.2 q hq2

theorem dictGet?_assign_self {κ α : Type} [DecidableEq κ]
    (d : List (κ × α)) (k : κ) (v : α) :
    dictGet? (dictAssign d k v) k = some v := by
  unfold dictAssign
  by_cases h : dictHas d k = true
  · rw [if_pos h]
    exact dictGet?_replace_self d k v h
  · rw [if_neg h]
    have hf : dictHas d k = false := by
      cases hcase : dictHas d k with
      | false => rfl
      | true => exact absurd hcase h
    rw [dictGet?_append_right d _ k (dictHas_false_keys d k hf)]
    simp [dictGet?]

theorem dictGet?_assign_other {κ α : Type} [DecidableEq κ]
    (d : List (κ × α)) (k k' : κ) (v : α) (hne : k' ≠ k) :
    dictGet? (dictAssign d k v) k' = dictGet? d k' := by
  unfold dictAssign
  by_cases h : dictHas d k = true
  · rw [if_pos h]
    exact dictGet?_replace_other d k k' v hne
  · rw [if_neg h]
    rw [dictGet?_append]
    cases hd : dictGet? d k' with
    | some v' => rfl
    | none =>
      have h1 : ¬(k = k') := fun hh => hne hh.symm
      simp [dictGet?, h1]

/-- Keys untouched by a fold of assignments keep their lookup. -/
theorem dictGet?_foldAssign_not_mem (off : Int) (l : List (PyVal × List String))
    (d : List (PyVal × List String)) (k : PyVal)
    (h : ∀ kv ∈ l, pyAddOffset kv.1 off ≠ k) :
    dictGet? (l.foldl (fun d kv => dictAssign d (pyAddOffset kv.1 off) kv.2) d) k =
      dictGet? d k := by
  induction l generalizing d with
  | nil => rfl
  | cons kv rest ih =>
    simp only [List.foldl_cons]
    rw [ih _ (fun x hx => h x (List.mem_cons_of_mem _ hx))]
    exact dictGet?_assign_other _ _ _ _ (fun hh => h kv (List.mem_cons_self _ _) hh.symm)

/-- Folding a dict of int-keyed entries with `nodup` keys into any
accumulator, with keys shifted by `off`, makes each entry retrievable at
its shifted key. -/
theorem dictGet?_foldAssign_mem (off : Int) (l : List (PyVal × List String))
    (d : List (PyVal × List String)) (k : Int) (v : List String)
    (hnd : (l.map Prod.fst).Nodup)
    (hint : ∀ kv ∈ l, ∃ n : Int, kv.1 = PyVal.int n)
    (hmem : (PyVal.int k, v) ∈ l) :
    dictGet? (l.foldl (fun d kv => dictAssign d (pyAddOffset kv.1 off) kv.2) d)
      (PyVal.int (k + off)) = some v := by
  induction l generalizing d with
  | nil => cases hmem
  | cons kv rest ih =>
    simp only [List.map_cons, List.nodup_cons] at hnd
    rcases List.mem_cons.1 hmem with heq | hmem2
    · subst heq
      simp only [List.foldl_cons]
      rw [dictGet?_foldAssign_not_mem]
      · exact dictGet?_assign_self _ _ _
      · intro x hx hcontra
        rcases hint x (List.mem_cons_of_mem _ hx) with ⟨n, hn⟩
        rw [hn] at hcontra
        simp only [pyAddOffset, PyVal.int.injEq] at hcontra
        have hxk : x.1 = PyVal.int k := by rw [hn]; congr 1; omega
        have hmm : x.1 ∈ List.map Prod.fst rest := List.mem_map_of_mem Prod.fst hx
        rw [hxk] at hmm
        exact hnd.1 hmm
    · exact ih _ hnd.2 (fun x hx => hint x (List.mem_cons_of_mem _ hx)) hmem2

theorem itemsGet_error_shape (d : List (String × PyVal)) (k : String) (e : PyError)
    (h : itemsGet d k = .error e) : e = .keyError k := by
  unfold itemsGet at h
  cases hd : dictGet? d k
  all_goals rw [hd] at h
  · injection h with h2
    exact h2.symm
  · simp at h

theorem pyIntOf_error_shape (v : PyVal) (e : PyError) (h : pyIntOf v = .error e) :
    e = .typeError ∨ e = .valueError := by
  cases v with
  | none =>
    injection h with h2
    exact Or.inl h2.symm
  | int n => simp [pyIntOf] at h
  | str s =>
    have hs2 : (match s.toInt? with
        | some n => (Except.ok n : Except PyError Int)
        | Option.none => Except.error PyError.valueError) = Except.error e := h
    cases hs : s.toInt?
    all_goals rw [hs] at hs2
    · injection hs2 with h2
      exact Or.inr h2.symm
    · simp at hs2

theorem colConv_error_shape (col : PyVal) (e : PyError) (h : colConv col = .error e) :
    e = .typeError ∨ e = .valueError := by
  unfold colConv at h
  by_cases hc : pyTruthy col
  · rw [if_pos hc] at h
    cases hi : pyIntOf col with
    | ok n => rw [hi] at h; simp [Except.map] at h
    | error e2 =>
      rw [hi] at h
      simp only [Except.map] at h
      injection h with h2
      rw [← h2]
      exact pyIntOf_error_shape col e2 hi
  · rw [if_neg hc] at h
    simp at h

theorem asInt_error_shape (v : PyVal) (e : PyError) (h : asInt v = .error e) :
    e = .typeError := by
  cases v with
  | none => injection h with h2; exact h2.symm
  | str s => injection h with h2; exact h2.symm
  | int n => simp [asInt] at h

/-- Every outcome of `split_match` on a real match: either an `ok` result
that is matched and carries an int row, or an exception that is not
`NotImplementedError`. -/
theorem split_match_some_shape (mt : ReMatch) :
    (∃ r : SplitResult, split_match (some mt) = .ok r ∧ r.matched = true ∧
      ∃ k : Int, r.row = PyVal.int k) ∨
    (∃ e : PyError, split_match (some mt) = .error e ∧ e ≠ .notImplementedError) := by
  cases h1 : itemsGet (split_items mt) "error" with
  | error e =>
    refine Or.inr ⟨e, ?_, ?_⟩
    · simp only [split_match, split_match_some, h1]
    · rw [itemsGet_error_shape _ _ _ h1]
      simp
  | ok error =>
    cases h2 : itemsGet (split_items mt) "line" with
    | error e =>
      refine Or.inr ⟨e, ?_, ?_⟩
      · simp only [split_match, split_match_some, h1, h2]
      · rw [itemsGet_error_shape _ _ _ h2]
        simp
    | ok row =>
      cases h3 : itemsGet (split_items mt) "col" with
      | error e =>
        refine Or.inr ⟨e, ?_, ?_⟩
        · simp only [split_match, split_match_some, h1, h2, h3]
        · rw [itemsGet_error_shape _ _ _ h3]
          simp
      | ok col =>
        cases h4 : itemsGet (split_items mt) "near" with
        | error e =>
          refine Or.inr ⟨e, ?_, ?_⟩
          · simp only [split_match, split_match_some, h1, h2, h3, h4]
          · rw [itemsGet_error_shape _ _ _ h4]
            simp
        | ok near =>
          cases h5 : pyIntOf row with
          | error e =>
            refine Or.inr ⟨e, ?_, ?_⟩
            · simp only [split_match, split_match_some, h1, h2, h3, h4, h5]
            · rcases pyIntOf_error_shape _ _ h5 with h | h <;> rw [h] <;> simp
          | ok r =>
            cases h6 : colConv col with
            | error e =>
              refine Or.inr ⟨e, ?_, ?_⟩
              · simp only [split_match, split_match_some, h1, h2, h3, h4, h5, h6]
              · rcases colConv_error_shape _ _ h6 with h | h <;> rw [h] <;> simp
            | ok c =>
              refine Or.inl ⟨⟨true, PyVal.int (r - 1), c, error, near⟩, ?_, rfl, r - 1, rfl⟩
              simp only [split_match, split_match_some, h1, h2, h3, h4, h5, h6]

/-- An `ok` result of `split_match` with an absent row can only be the
falsy-match placeholder. -/
theorem split_match_ok_row_none (m : Option ReMatch) (r : SplitResult)
    (hok : split_match m = .ok r) (hrow : r.row = PyVal.none) :
    r.matched = false := by
  cases m with
  | none =>
    unfold split_match at hok
    injection hok with h2
    rw [← h2]
  | some mt =>
    rcases split_match_some_shape mt with ⟨r2, hr2, _, k, hk⟩ | ⟨e, he, _⟩
    · rw [hok] at hr2
      injection hr2 with h2
      subst h2
      rw [hrow] at hk
      cases hk
    · rw [hok] at he
      cases he

theorem split_match_ne_NI (m : Option ReMatch) :
    split_match m ≠ Except.error PyError.notImplementedError := by
  cases m with
  | none => simp [split_match]
  | some mt =>
    rcases split_match_some_shape mt with ⟨r, hr, _, _⟩ | ⟨e, he, hne⟩
    · rw [hr]; simp
    · rw [he]
      intro hc
      injection hc with h2
      exact hne h2

theorem processResult_ne_NI (tabSize : Nat) (fullLine : Int → String)
    (st : InstState) (r : SplitResult) :
    processResult tabSize fullLine st r ≠ Except.error PyError.notImplementedError := by
  unfold processResult
  intro h
  repeat' split at h
  all_goals try cases h
  all_goals
    rename_i heq
    first
      | exact absurd (asInt_error_shape _ _ heq) (by simp)
      | simp [fix_col] at heq

theorem runResults_ne_NI (tabSize : Nat) (fullLine : Int → String)
    (st : InstState) (rs : List (Except PyError SplitResult))
    (h : ∀ er ∈ rs, er ≠ Except.error PyError.notImplementedError) :
    runResults tabSize fullLine st rs ≠ Except.error PyError.notImplementedError := by
  induction rs generalizing st with
  | nil => simp [runResults]
  | cons er rest ih =>
    cases er with
    | error e =>
      unfold runResults
      intro hc
      injection hc with h2
      exact h _ (List.mem_cons_self _ _) (by rw [h2])
    | ok r =>
      unfold runResults
      cases hp : processResult tabSize fullLine st r with
      | error e =>
        intro hc
        injection hc with h2
        subst h2
        exact processResult_ne_NI _ _ _ _ hp
      | ok st2 =>
        exact ih st2 (fun x hx => h x (List.mem_cons_of_mem _ hx))

theorem mkInstances_syn (langs : List (String × LinterDef)) (syn : String) (startId : Nat) :
    ∀ inst ∈ (mkInstances langs syn startId).1, inst.syn = syn := by
  suffices h : ∀ (acc : List LintInstance × Nat), (∀ x ∈ acc.1, x.syn = syn) →
      ∀ inst ∈ (langs.foldl
        (fun acc entry =>
          if can_lint entry.2 syn then (acc.1 ++ [⟨acc.2, entry.1, syn⟩], acc.2 + 1)
          else acc) acc).1, inst.syn = syn by
    exact h ([], startId) (by intro x hx; cases hx)
  induction langs with
  | nil =>
    intro acc hacc inst hinst
    exact hacc inst hinst
  | cons entry rest ih =>
    intro acc hacc inst hinst
    simp only [List.foldl_cons] at hinst
    by_cases hc : can_lint entry.2 syn
    · rw [if_pos hc] at hinst
      refine ih _ ?_ inst hinst
      intro x hx
      rcases List.mem_append.1 hx with hx | hx
      · exact hacc x hx
      · rw [List.mem_singleton.1 hx]
    · rw [if_neg hc] at hinst
      exact ih _ hacc inst hinst

/-- C2 (amended): `attach`/`assign` is idempotent on the registry — a
second call with the same view and unchanged canonical syntax token
leaves the stored instance set object unchanged and creates no new
instances — but the second call returns `None` (the bare `return` of
linter.py line 87), not the same instance set object. -/
theorem c2_attach_second_call_noop (p : Persist) (v : View) (p1 : Persist)
    (s : List LintInstance)
    (h : assign p v = (p1, some s)) : assign p1 v = (p1, Option.none) := by
  unfold assign at h
  dsimp only at h
  split at h
  · simp at h
  · split at h
    · simp at h
    · split at h
      · simp at h
      · split at h
        · simp at h
        · rename_i hsyn0 hsynne hskip hbuilt
          have hp1 : p1 = { p with
              linters := dictAssign p.linters v.vid
                (mkInstances p.languages ((syn_re_search v.synSetting).getD v.synSetting)
                  p.nextId).1,
              nextId := (mkInstances p.languages
                ((syn_re_search v.synSetting).getD v.synSetting) p.nextId).2 } := by
            have := congrArg Prod.fst h
            exact this.symm
          have hs : s = (mkInstances p.languages
              ((syn_re_search v.synSetting).getD v.synSetting) p.nextId).1 := by
            have := congrArg Prod.snd h
            simp at this
            exact this.symm
          have hGet : dictGet? p1.linters v.vid = some s := by
            rw [hp1, hs]
            exact dictGet?_assign_self _ _ _
          have hsne : ¬s.isEmpty = true := by
            rw [hs]
            exact hbuilt
          unfold assign
          rw [if_neg hsyn0, if_neg hsynne, hGet]
          cases hcons : s with
          | nil => rw [hcons] at hsne; simp at hsne
          | cons inst rest =>
            have hinsyn : inst.syn = (syn_re_search v.synSetting).getD v.synSetting := by
              apply mkInstances_syn p.languages _ p.nextId
              rw [← hs, hcons]
              exact List.mem_cons_self _ _
            simp [hinsyn]

theorem find_errors_elem_shape (d : LinterDef) (rgx : Regex) (output : String)
    (er : Except PyError SplitResult) (h : er ∈ find_errors d rgx output) :
    ∃ m, er = split_match m := by
  unfold find_errors at h
  by_cases hm : d.multiline
  · rw [if_pos hm] at h
    simp only [pyIterTruthy, if_true] at h
    rcases List.mem_map.1 h with ⟨mt, _, hmt⟩
    exact ⟨some mt, hmt.symm⟩
  · rw [if_neg hm] at h
    rcases List.mem_map.1 h with ⟨line, _, hline⟩
    exact ⟨rgx.matchAt (pyStrip line), hline.symm⟩

/-- C1: in multiline mode with zero pattern matches, `find_errors` yields
*no* parse result at all — never the single empty placeholder the spec
promises.  The `if errors:` test is applied to the iterator returned by
`finditer`, which is always truthy, so the `split_match(None)` branch is
dead code. -/
theorem c1_multiline_nomatch_yields_nothing (d : LinterDef) (rgx : Regex)
    (output : String) (hml : d.multiline = true) (hnone : rgx.finditer output = []) :
    find_errors d rgx output = [] := by
  unfold find_errors
  rw [if_pos hml]
  simp [pyIterTruthy, hnone]

theorem c1_multiline_nomatch_witness :
    mlDef.multiline = true ∧ noMatchRegex.finditer "hello" = [] ∧
      ("hello" : String) ≠ "" ∧ find_errors mlDef noMatchRegex "hello" = [] :=
  ⟨rfl, rfl, by decide,
    c1_multiline_nomatch_yields_nothing mlDef noMatchRegex "hello" rfl rfl⟩

/-- C2 counterexample: the first `assign` call returns the freshly built
instance set, but the second call with the identical view returns `None`
rather than the same set object — refuting "returns the same instance set
object both times". -/
theorem c2_attach_counterexample :
    (assign p0 v0).2 = some [inst0] ∧
    (assign (assign p0 v0).1 v0).2 = Option.none := by
  constructor
  · rfl
  · rfl

theorem c2_attach_second_call_noop_witness :
    assign p1c v0 = (p1c, Option.none) :=
  c2_attach_second_call_noop p0 v0 p1c [inst0] (by decide)

/-- C3: the column-correction path of `lint` never computes a corrected
column at all.  Its loop header is `for i in xrange(len(code_line)):`,
and `xrange` is a Python 2 name this Python 3 module never defines, so
at the claim's worked example — tab width 4, line text `"\tfoo = 1"`,
reported column 5, on a matched result with row and column present —
the loop body of `processResult` raises `NameError('xrange')` instead
of producing the claimed column.  (For reference, the spec's own scan
rule, modelled from its words as `specScanCorrected`, yields 2 at that
example, not the claimed 1: one tab gives `diff = 3` and the first `i`
with `5 - 3 ≤ i` is 2.) -/
theorem c3_column_correction_nameerror :
    processResult 4 (fun _ => "\tfoo = 1") emptyState
      ⟨true, PyVal.int 0, PyVal.int 5, PyVal.str "bad column", PyVal.none⟩ =
      Except.error (PyError.nameError "xrange") ∧
    specScanCorrected 4 "\tfoo = 1".toList 5 = 2 := by
  constructor
  · rfl
  · rfl

/-- C4: a match that captures no row does not fall back to the absent-row
default: the defaults dict is keyed `'row'` but `split_match` reads
`items['line']`, so the lookup raises `KeyError('line')` instead of
preserving the row as absent (the `'row'` default, shown unreachable
here, is dead). -/
theorem c4_split_match_missing_row_keyerror :
    split_match (some ⟨[]⟩) = Except.error (PyError.keyError "line") ∧
    dictGet? splitDefaults "row" = some PyVal.none := by
  constructor
  · rfl
  · rfl

/-- C5: every parse result with an absent row is the falsy-match
placeholder, and the `lint` loop body leaves the instance state — the
errors dict and the highlight call log — completely unchanged for it. -/
theorem c5_absent_row_no_diagnostic (m : Option ReMatch) (r : SplitResult)
    (hok : split_match m = Except.ok r) (hrow : r.row = PyVal.none)
    (tabSize : Nat) (fullLine : Int → String) (st : InstState) :
    processResult tabSize fullLine st r = Except.ok st := by
  have hm : r.matched = false := split_match_ok_row_none m r hok hrow
  unfold processResult
  rw [hm]
  simp

theorem c5_absent_row_no_diagnostic_witness :
    split_match Option.none =
      Except.ok ⟨false, PyVal.none, PyVal.none, PyVal.str "", PyVal.none⟩ ∧
    processResult 1 (fun _ => "") emptyState
      ⟨false, PyVal.none, PyVal.none, PyVal.str "", PyVal.none⟩ =
        Except.ok emptyState :=
  ⟨rfl, c5_absent_row_no_diagnostic Option.none _ rfl rfl 1 (fun _ => "") emptyState⟩

/-- C6 counterexample: a definition whose pattern source failed to
compile has no compiled output pattern, yet `lint` does not raise
`NotImplementedError` — it proceeds and invokes the external checker. -/
theorem c6_uncompiled_pattern_counterexample :
    parenDef.regexCompiles = false ∧
    lint parenDef (fun _ _ => "") noMatchRegex (fun _ => "") "code" emptyState =
      ([parenDef.cmd], Except.ok emptyState) := by
  constructor
  · rfl
  · rfl

/-- C6 (amended): `lint` raises `NotImplementedError` iff the definition
lacks a language name, a command, or a *non-empty* pattern source (a
pattern that failed to compile still counts as present); when it raises,
it raises before any checker invocation (the invocation trace is empty),
and the error propagates unchanged through `pre_lint` — nothing in this
module catches it. -/
theorem c6_incomplete_definition_amended (d : LinterDef)
    (comm : List String → String → String) (rgx : Regex) (fullLine : Int → String)
    (code : String) (st0 : InstState) :
    ((lint d comm rgx fullLine code st0).2 = Except.error PyError.notImplementedError ↔
      (langTruthy d.language = false ∨ d.cmd = [] ∨ d.regex = "")) ∧
    (lint_ready d = false →
      lint d comm rgx fullLine code st0 = ([], Except.error PyError.notImplementedError)) ∧
    (code ≠ "" → lint_ready d = false →
      (pre_lint d comm rgx fullLine code Option.none).2 =
        Except.error PyError.notImplementedError) := by
  have hready : lint_ready d = false ↔
      (langTruthy d.language = false ∨ d.cmd = [] ∨ d.regex = "") := by
    unfold lint_ready
    constructor
    · intro h
      rcases Bool.and_eq_false_iff.mp h with h2 | h3
      · rcases Bool.and_eq_false_iff.mp h2 with h4 | h5
        · exact Or.inl h4
        · refine Or.inr (Or.inl ?_)
          have h6 : d.cmd.isEmpty = true := by
            cases hx : d.cmd.isEmpty
            · rw [hx] at h5
              simp at h5
            · rfl
          exact List.isEmpty_iff.mp h6
      · refine Or.inr (Or.inr ?_)
        have h7 : ¬(d.regex ≠ "") := decide_eq_false_iff_not.mp h3
        exact not_not.mp h7
    · intro h
      rcases h with h | h | h
      · simp [h]
      · simp [h, List.isEmpty]
      · simp [h]
  have hlintf : ∀ st : InstState, lint_ready d = false →
      lint d comm rgx fullLine code st =
        ([], Except.error PyError.notImplementedError) := by
    intro st hf
    unfold lint
    rw [if_neg (by simp [hf])]
  have hNI : lint_ready d = true →
      (lint d comm rgx fullLine code st0).2 ≠ Except.error PyError.notImplementedError := by
    intro hr
    unfold lint
    rw [if_pos hr]
    dsimp only
    by_cases ho : comm d.cmd code = ""
    · rw [if_pos ho]
      simp
    · rw [if_neg ho]
      apply runResults_ne_NI
      intro er her
      rcases find_errors_elem_shape d rgx _ er her with ⟨m, hm⟩
      rw [hm]
      exact split_match_ne_NI m
  refine ⟨⟨?_, ?_⟩, hlintf st0, ?_⟩
  · intro h
    rw [← hready]
    cases hlr : lint_ready d with
    | false => rfl
    | true => exact absurd h (hNI hlr)
  · intro h
    rw [hlintf st0 (hready.2 h)]
  · intro hcode hf
    unfold pre_lint
    rw [if_neg hcode]
    rw [hlintf _ hf]

theorem c6_incomplete_definition_witness :
    lint noCmdDef (fun _ _ => "out") noMatchRegex (fun _ => "") "code" emptyState =
      ([], Except.error PyError.notImplementedError) ∧
    (pre_lint noCmdDef (fun _ _ => "out") noMatchRegex (fun _ => "") "code"
        Option.none).2 = Except.error PyError.notImplementedError := by
  have h := c6_incomplete_definition_amended noCmdDef (fun _ _ => "out") noMatchRegex
    (fun _ => "") "code" emptyState
  exact ⟨h.2.1 (by rfl), h.2.2 (by decide) (by rfl)⟩

/-- C7: section merging re-keys every diagnostic line by adding the
section's line offset: a diagnostic the instance reports at parsed line
`line` inside the section `(off, a, b)` appears in the merged errors
dict under `line + off`. -/
theorem c7_section_offset_rekey (code : String) (off : Int) (a b : Nat)
    (run : String → List (PyVal × List String)) (line : Int) (msgs : List String)
    (hnd : ((run (pySlice code a b)).map Prod.fst).Nodup)
    (hint : ∀ kv ∈ run (pySlice code a b), ∃ n : Int, kv.1 = PyVal.int n)
    (hmem : (PyVal.int line, msgs) ∈ run (pySlice code a b)) :
    dictGet? (lint_view_sections code [(off, a, b)] run) (PyVal.int (line + off)) =
      some msgs := by
  unfold lint_view_sections
  simp only [List.foldl_cons, List.foldl_nil]
  exact dictGet?_foldAssign_mem off _ [] line msgs hnd hint hmem

theorem c7_section_offset_rekey_witness :
    dictGet? (lint_view_sections "0123456789012345678901234567890123456789012345678901234"
        [((10 : Int), 0, 50)] (fun _ => [(PyVal.int 2, ["E1"])]))
      (PyVal.int (2 + 10)) = some ["E1"] :=
  c7_section_offset_rekey _ 10 0 50 (fun _ => [(PyVal.int 2, ["E1"])]) 2 ["E1"]
    (by decide)
    (by
      intro kv hkv
      rw [List.mem_singleton.1 hkv]
      exact ⟨2, rfl⟩)
    (by decide)

/-- C8: computing effective settings mutates the stored defaults —
`settings = cls.defaults or {}` aliases the truthy defaults dict and
`settings.update(...)` writes through it, so after the call the stored
defaults have absorbed the plugin settings, contradicting the claimed
immutability of a registered definition. -/
theorem c8_get_settings_mutates_defaults :
    (get_settings (some [("a", PyVal.int 1)]) [("X", [("b", PyVal.int 2)])] "X").2 =
      some [("a", PyVal.int 1), ("b", PyVal.int 2)] ∧
    (get_settings (some [("a", PyVal.int 1)]) [("X", [("b", PyVal.int 2)])] "X").2 ≠
      some [("a", PyVal.int 1)] := by
  constructor
  · rfl
  · decide

/-- C9: `pre_lint` on empty input text resets the errors dict to empty,
installs a fresh highlight object, invokes no external checker and
raises nothing — for every definition, even one lacking language,
command and pattern. -/
theorem c9_pre_lint_empty_input (d : LinterDef) (comm : List String → String → String)
    (rgx : Regex) (fullLine : Int → String) :
    pre_lint d comm rgx fullLine "" Option.none =
      ([], Except.ok ⟨[], freshHighlight "" d.scope d.outline⟩) := by
  unfold pre_lint
  simp

/-- C10: when two sections feeding the same instance produce diagnostics
whose offset-adjusted lines coincide, the later section's message list
replaces the earlier one's in the merged dict — the two lists are not
concatenated. -/
theorem c10_section_collision_replaces (code : String) (o1 o2 : Int)
    (a1 b1 a2 b2 : Nat) (run : String → List (PyVal × List String))
    (l1 l2 : Int) (v1 v2 : List String)
    (hnd2 : ((run (pySlice code a2 b2)).map Prod.fst).Nodup)
    (hint2 : ∀ kv ∈ run (pySlice code a2 b2), ∃ n : Int, kv.1 = PyVal.int n)
    (_hmem1 : (PyVal.int l1, v1) ∈ run (pySlice code a1 b1))
    (hmem2 : (PyVal.int l2, v2) ∈ run (pySlice code a2 b2))
    (_hcol : l1 + o1 = l2 + o2) (hne : v1 ≠ []) :
    dictGet? (lint_view_sections code [(o1, a1, b1), (o2, a2, b2)] run)
        (PyVal.int (l2 + o2)) = some v2 ∧
    dictGet? (lint_view_sections code [(o1, a1, b1), (o2, a2, b2)] run)
        (PyVal.int (l2 + o2)) ≠ some (v1 ++ v2) := by
  have hmain : dictGet? (lint_view_sections code [(o1, a1, b1), (o2, a2, b2)] run)
      (PyVal.int (l2 + o2)) = some v2 := by
    unfold lint_view_sections
    simp only [List.foldl_cons, List.foldl_nil]
    exact dictGet?_foldAssign_mem o2 _ _ l2 v2 hnd2 hint2 hmem2
  refine ⟨hmain, ?_⟩
  rw [hmain]
  intro hcontra
  injection hcontra with hv
  have hlen : v2.length = (v1 ++ v2).length := by rw [← hv]
  rw [List.length_append] at hlen
  have hv1 : v1.length = 0 := by omega
  exact hne (List.length_eq_zero.1 hv1)

theorem c10_section_collision_replaces_witness :
    dictGet? (lint_view_sections "abcdef" [((0 : Int), 0, 2), ((3 : Int), 3, 5)]
        (fun s => if s = "ab" then [(PyVal.int 5, ["A"])] else [(PyVal.int 2, ["B"])]))
      (PyVal.int ((2 : Int) + 3)) = some ["B"] ∧
    dictGet? (lint_view_sections "abcdef" [((0 : Int), 0, 2), ((3 : Int), 3, 5)]
        (fun s => if s = "ab" then [(PyVal.int 5, ["A"])] else [(PyVal.int 2, ["B"])]))
      (PyVal.int ((2 : Int) + 3)) ≠ some (["A"] ++ ["B"]) :=
  c10_section_collision_replaces "abcdef" 0 3 0 2 3 5
    (fun s => if s = "ab" then [(PyVal.int 5, ["A"])] else [(PyVal.int 2, ["B"])])
    5 2 ["A"] ["B"] (by decide)
    (by
      intro kv hkv
      simp only [pySlice] at hkv
      rcases List.mem_singleton.1 (by simpa using hkv) with rfl
      exact ⟨2, rfl⟩)
    (by decide) (by decide) (by decide) (by decide)

end SublimeLint
